import Mathlib

/-!
Verification development for the streaming tool-calling orchestration core of
the stripe-mcp-fridge repository (src/backend/server.js,
src/backend/lib/mcp/tools.js, src/backend/lib/mcp/stripe-mcp.js).

The JavaScript source is shallowly embedded: pure helpers become Lean
functions, the mutable per-request state of the chat-stream handler becomes
explicit state passing, and platform primitives that are not part of the
repository (JSON.parse, JSON.stringify, Date.now, the network transports)
become function parameters.  JavaScript sparse arrays are modelled as
List (Option _) where a none entry stands for an array hole / undefined.
-/

namespace StripeMcp

/-! ## JavaScript string primitives

The handler manipulates chunks with String.prototype.split, startsWith,
slice, includes and the || operator.  They are modelled character-wise so
that every definition evaluates in the kernel.  All payloads involved are
ASCII, so the difference between UTF-16 units (JS) and Lean chars is
immaterial here. -/

/-- Splitting a character list at every occurrence of a separator character,
keeping empty segments, exactly like String.prototype.split. -/
def splitCharAux (c : Char) : List Char → List Char → List (List Char)
  | [], acc => [acc.reverse]
  | x :: xs, acc =>
      if x = c then acc.reverse :: splitCharAux c xs [] else splitCharAux c xs (x :: acc)

/-- Model of JavaScript chunk.split(c) (server.js line 57 uses the newline
separator). -/
def jsSplit (s : String) (c : Char) : List String :=
  (splitCharAux c s.data []).map String.mk

/-- Model of JavaScript line.startsWith(pre) (server.js line 60). -/
def jsStartsWith (s pre : String) : Bool :=
  pre.data.isPrefixOf s.data

/-- Model of JavaScript line.slice(n) (server.js line 61 drops the 6-char
"data: " marker). -/
def jsSlice (s : String) (n : Nat) : String :=
  String.mk (s.data.drop n)

/-- Model of JavaScript chunk.includes(sub) (server.js line 262). -/
def jsIncludes (s sub : String) : Bool :=
  s.data.tails.any (fun t => sub.data.isPrefixOf t)

/-- Model of the JavaScript expression x || d for a possibly-absent string x:
undefined, null and the empty string are falsy and select the default. -/
def jsOrString (x : Option String) (d : String) : String :=
  match x with
  | none => d
  | some s => if s = "" then d else s

/-- Truthiness of a possibly-absent JavaScript string: present and non-empty. -/
def truthyString (x : Option String) : Bool :=
  match x with
  | none => false
  | some s => s ≠ ""

/-- Truthy projection of a possibly-absent string: the value when present
and non-empty, none otherwise. -/
def truthyOpt (x : Option String) : Option String :=
  match x with
  | none => none
  | some s => if s = "" then none else some s

/-- One step of keeping the last truthy value seen so far. -/
def lastTruthyStep (acc : Option String) (o : Option String) : Option String :=
  match o with
  | some s => if s = "" then acc else some s
  | none => acc

/-- Last truthy (present and non-empty) value in a list of optional strings;
none when no element is truthy.  Captures the net effect of repeated
overwrite-only-when-truthy updates. -/
def lastTruthy (l : List (Option String)) : Option String :=
  l.foldl lastTruthyStep none

/-- Concatenation of a list of strings in order, as built by repeated
JavaScript += updates. -/
def concatAll (l : List String) : String :=
  l.foldl (fun a b => a ++ b) ""

/-! ## Sparse arrays

toolCalls in server.js is a JavaScript array written only at
toolCalls[index]; skipping indices produces holes.  A sparse array is
modelled as List (Option α): none is a hole (reading it gives undefined). -/

/-- Reading slot i of a sparse array: holes and out-of-range reads give
undefined (none). -/
def getSlot {α : Type} : List (Option α) → Nat → Option α
  | [], _ => none
  | x :: _, 0 => x
  | _ :: xs, n + 1 => getSlot xs n

/-- Writing slot i of a sparse array, extending it with holes when i is past
the end, exactly like a JavaScript indexed assignment. -/
def setSlot {α : Type} : List (Option α) → Nat → α → List (Option α)
  | [], 0, v => [some v]
  | [], n + 1, v => none :: setSlot [] n v
  | _ :: xs, 0, v => some v :: xs
  | x :: xs, n + 1, v => x :: setSlot xs n v

/-! ## Data model of the parsed provider stream

Shapes read by the chat-stream handler from a parsed SSE payload
(server.js lines 269-320).  Absent JSON fields are Options. -/

/-- Partial function data inside a streamed tool-call fragment
(toolCall.function in server.js lines 288-300). -/
structure FragmentFunction where
  name : Option String
  arguments : Option String
deriving DecidableEq

/-- Streamed tool-call fragment (one element of choice.delta.tool_calls,
server.js lines 281-301). -/
structure ToolCallFragment where
  index : Option Nat
  id : Option String
  type : Option String
  function : Option FragmentFunction
deriving DecidableEq

/-- Completed function data of a tool call. -/
structure ToolCallFunction where
  name : String
  arguments : String
deriving DecidableEq

/-- Completed tool call as accumulated by the handler
(server.js lines 284-291). -/
structure ToolCall where
  id : String
  type : String
  function : ToolCallFunction
deriving DecidableEq

/-- Streamed delta of one choice (server.js lines 272-303). -/
structure Delta where
  content : Option String
  tool_calls : Option (List ToolCallFragment)
deriving DecidableEq

/-- Non-streamed message of one choice (server.js line 307); only its
tool_calls field is read. -/
structure ChoiceMessage where
  tool_calls : Option (List ToolCall)
deriving DecidableEq

/-- One element of parsed.choices. -/
structure Choice where
  delta : Option Delta
  message : Option ChoiceMessage
  finish_reason : Option String
deriving DecidableEq

/-- Parsed SSE payload as consumed by the handler: choices plus the
truthiness of the usage and timings fields (their contents are only ever
echoed back verbatim, never inspected). -/
structure ParsedChunk where
  choices : List Choice
  usage : Bool
  timings : Bool
deriving DecidableEq

/-! ## Chunk parser (parseSSEChunk, server.js lines 56-76)

JSON.parse is a platform primitive, modelled as an abstract parameter
jsonParse returning none where JSON.parse would throw. -/

/-- Line scan of parseSSEChunk: the first "data: " line whose payload is the
literal [DONE] ends the scan with no event (the early return null on
server.js line 64); the first whose payload parses yields that payload
(return on line 68); lines that fail to parse are skipped (continue on
line 70); any other line is ignored. -/
def parseSSELines (jsonParse : String → Option ParsedChunk) : List String → Option ParsedChunk
  | [] => none
  | line :: rest =>
      if jsStartsWith line "data: " then
        let data := jsSlice line 6
        if data = "[DONE]" then none
        else
          match jsonParse data with
          | some j => some j
          | none => parseSSELines jsonParse rest
      else parseSSELines jsonParse rest

/-- Model of parseSSEChunk (server.js lines 56-76): split the chunk on
newlines and scan the lines. -/
def parseSSEChunk (jsonParse : String → Option ParsedChunk) (chunk : String) : Option ParsedChunk :=
  parseSSELines jsonParse (jsSplit chunk '\n')

/-! ## Tool-call accumulator (server.js lines 281-301)

The generated fallback id is call_${Date.now()}_${index} in the source;
Date.now is ambient, so the generator is an abstract parameter of the
index. -/

/-- Merging one streamed fragment into the sparse toolCalls array
(server.js lines 282-301): create a builder with defaulted fields when the
slot is empty, otherwise append the arguments delta and overwrite id and
name only when the fragment supplies a truthy value. -/
def applyFragment (genId : Nat → String) (tcs : List (Option ToolCall))
    (tc : ToolCallFragment) : List (Option ToolCall) :=
  let index := tc.index.getD 0
  match getSlot tcs index with
  | none =>
      setSlot tcs index
        { id := jsOrString tc.id (genId index)
          type := jsOrString tc.type "function"
          function :=
            { name := jsOrString (tc.function.bind (fun f => f.name)) ""
              arguments := jsOrString (tc.function.bind (fun f => f.arguments)) "" } }
  | some existing =>
      let delta := jsOrString (tc.function.bind (fun f => f.arguments)) ""
      let afterArgs : ToolCall :=
        { existing with function :=
            { existing.function with arguments := existing.function.arguments ++ delta } }
      let afterId : ToolCall :=
        if truthyString tc.id then { afterArgs with id := tc.id.getD "" } else afterArgs
      let afterName : ToolCall :=
        if truthyString (tc.function.bind (fun f => f.name)) then
          { afterId with function := { afterId.function with name := (tc.function.bind (fun f => f.name)).getD "" } }
        else afterId
      setSlot tcs index afterName

/-- Optional name carried by a fragment (toolCall.function?.name). -/
def fragName (f : ToolCallFragment) : Option String :=
  f.function.bind (fun ff => ff.name)

/-- Arguments delta contributed by a fragment, with the JavaScript default
of the empty string (toolCall.function?.arguments || ''). -/
def fragArgDelta (f : ToolCallFragment) : String :=
  jsOrString (f.function.bind (fun ff => ff.arguments)) ""

/-! ## Conversation messages

conversationMessages in server.js holds the request messages plus the
pushed assistant and tool messages.  Because Promise.all over a sparse
array yields undefined at holes (see promiseAllResults below), an entry of
the conversation is either a message or undefined. -/

/-- Message shape as pushed by the handler (server.js lines 330-334 and
349-353).  tool_calls stores the sparse accumulated array. -/
structure Message where
  role : String
  content : Option String
  tool_calls : Option (List (Option ToolCall))
  tool_call_id : Option String
deriving DecidableEq

/-- Conversation entry: a message, or the JavaScript undefined produced when
a hole of the sparse toolCalls array flows through Promise.all. -/
inductive ConvEntry where
  | msg (m : Message)
  | undef
deriving DecidableEq

/-! ## Turn state and relayed events -/

/-- Per-turn mutable state of the chunk-reading loop
(server.js lines 244-247). -/
structure TurnState where
  accumulatedContent : String
  toolCalls : List (Option ToolCall)
  finalData : Option ParsedChunk
  hasToolCalls : Bool
deriving DecidableEq

/-- Initial per-turn state (server.js lines 244-247). -/
def initialTurnState : TurnState :=
  { accumulatedContent := "", toolCalls := [], finalData := none, hasToolCalls := false }

/-- Events written to the client response stream.  rawChunk c models
res.write(chunk + newline) for a content chunk (line 276); doneMarker
models res.write of the data: [DONE] sentinel record (lines 263 and 383);
finalData models the trailer write of the captured usage/timings payload
(line 380); errorEvent models the data: record carrying a JSON error
object (lines 229, 239, 391, 397). -/
inductive RelayEvent where
  | rawChunk (chunk : String)
  | doneMarker
  | finalData (d : ParsedChunk)
  | errorEvent (msg : String)
deriving DecidableEq

/-- Recognizer for error events, used to count how many error records a run
writes. -/
def isErrorEvent : RelayEvent → Bool
  | RelayEvent.errorEvent _ => true
  | _ => false

/-- Processing of one decoded chunk by the streaming loop body
(server.js lines 257-321): parse it, forward the [DONE] sentinel of an
unparsable chunk, otherwise read the first choice, accumulate and forward
truthy content, merge streamed tool-call fragments, adopt a direct
message.tool_calls list wholesale, latch the finish_reason signal, and
capture a payload carrying usage or timings as finalData. -/
def processChunk (jsonParse : String → Option ParsedChunk) (genId : Nat → String)
    (st : TurnState) (chunk : String) : TurnState × List RelayEvent :=
  match parseSSEChunk jsonParse chunk with
  | none => (st, if jsIncludes chunk "[DONE]" then [RelayEvent.doneMarker] else [])
  | some parsed =>
      match parsed.choices.head? with
      | none => (st, [])
      | some choice =>
          let stEvs : TurnState × List RelayEvent :=
            match choice.delta with
            | none => (st, [])
            | some delta =>
                let stEvs : TurnState × List RelayEvent :=
                  if truthyString delta.content then
                    ({ st with accumulatedContent := st.accumulatedContent ++ delta.content.getD "" },
                      [RelayEvent.rawChunk chunk])
                  else (st, [])
                match delta.tool_calls with
                | none => stEvs
                | some frags =>
                    let tcs := frags.foldl (applyFragment genId) stEvs.1.toolCalls
                    ({ stEvs.1 with hasToolCalls := true, toolCalls := tcs }, stEvs.2)
          let st2 :=
            match choice.message with
            | none => stEvs.1
            | some m =>
                match m.tool_calls with
                | none => stEvs.1
                | some lst => { stEvs.1 with hasToolCalls := true, toolCalls := lst.map some }
          let st3 := if choice.finish_reason = some "tool_calls" then { st2 with hasToolCalls := true } else st2
          let st4 := if parsed.usage || parsed.timings then { st3 with finalData := some parsed } else st3
          (st4, stEvs.2)

/-- Truth of any of the three tool signals inside one parsed payload, read
off the first choice: a tool_calls field in the delta (server.js line 279),
a tool_calls field in the message (line 307), or the finish_reason
tool_calls (line 313). -/
def chunkToolSignal (p : ParsedChunk) : Bool :=
  match p.choices.head? with
  | none => false
  | some c =>
      ((match c.delta with
        | some d => d.tool_calls.isSome
        | none => false) ||
       (match c.message with
        | some m => m.tool_calls.isSome
        | none => false) ||
       decide (c.finish_reason = some "tool_calls"))

/-- Line the parseSSEChunk scan passes over without producing an event: not
a data line, or a data line whose payload is neither the end sentinel nor
parsable. -/
def skippedLine (jsonParse : String → Option ParsedChunk) (line : String) : Prop :=
  jsStartsWith line "data: " = false ∨
    (jsSlice line 6 ≠ "[DONE]" ∧ jsonParse (jsSlice line 6) = none)

instance (jsonParse : String → Option ParsedChunk) (line : String) :
    Decidable (skippedLine jsonParse line) :=
  inferInstanceAs (Decidable (_ ∨ _))

/-- One iteration of the chunk-reading loop threading the turn state and the
events written so far. -/
def processTurnStep (jsonParse : String → Option ParsedChunk) (genId : Nat → String)
    (acc : TurnState × List RelayEvent) (chunk : String) : TurnState × List RelayEvent :=
  let step := processChunk jsonParse genId acc.1 chunk
  (step.1, acc.2 ++ step.2)

/-- Processing of a whole provider turn: fold the chunk loop
(server.js lines 250-322) over the decoded chunks of the response body. -/
def processTurn (jsonParse : String → Option ParsedChunk) (genId : Nat → String)
    (chunks : List String) : TurnState × List RelayEvent :=
  chunks.foldl (processTurnStep jsonParse genId) (initialTurnState, [])

/-! ## Tool execution results and Promise.all

toolCalls.map(callback) skips holes of the sparse array and keeps them as
holes; Promise.all then iterates the mapped array with the array iterator,
which yields undefined at each hole.  The composite therefore produces one
tool message per present slot and one undefined per hole, in slot order. -/

/-- Tool message built from one executed call (server.js lines 349-353);
exec stands for the awaited executeToolCall. -/
def toolResultMessage (exec : String → String → String) (tc : ToolCall) : Message :=
  { role := "tool"
    content := some (exec tc.function.name tc.function.arguments)
    tool_calls := none
    tool_call_id := some tc.id }

/-- Composite of toolCalls.map over a sparse array and Promise.all
(server.js lines 338-364): a present slot becomes its tool message, a hole
becomes undefined. -/
def promiseAllResults (exec : String → String → String)
    (tcs : List (Option ToolCall)) : List ConvEntry :=
  tcs.map (fun otc =>
    match otc with
    | some tc => ConvEntry.msg (toolResultMessage exec tc)
    | none => ConvEntry.undef)

/-- Event-loop model of Promise.all over dense task lists: tasks complete in
an arbitrary order (any permutation of the indices), and each completion
stores its value at the task's original index in a result table that
starts out empty. -/
def gatherByCompletion {α : Type} (tasks : List α) (order : List Nat) : List (Option α) :=
  order.foldl
    (fun table i =>
      match tasks[i]? with
      | some v => setSlot table i v
      | none => table)
    (List.replicate tasks.length none)

/-! ## Tool executor (executeToolCall, server.js lines 81-121)

JSON.parse of the argument text, the message of the parse exception,
callStripeMCPTool (src/backend/lib/mcp/stripe-mcp.js lines 123-141, an
awaited transport call that either returns an MCP result or throws) and
JSON.stringify of a whole result are platform or transport capabilities,
modelled as parameters.  A thrown JavaScript error is an Except.error
carrying the error message. -/

/-- One entry of the MCP result content array (server.js lines 104-110);
text is optional because the code checks its truthiness. -/
structure MCPContentItem where
  type : String
  text : Option String
deriving DecidableEq

/-- MCP tool-call result: an optional content array (absent when
result?.content is not an array). -/
structure MCPResult where
  content : Option (List MCPContentItem)
deriving DecidableEq

/-- Serialization of JSON.stringify applied to an object with a single
error field holding a string (server.js line 119), with the two characters
JSON.stringify always escapes in such a string handled. -/
def jsonEscapeChar (c : Char) : String :=
  if c = '\\' then "\\\\" else if c = '"' then "\\\"" else String.mk [c]

/-- Serialized structured error payload returned by the tool executor. -/
def jsonStringifyError (msg : String) : String :=
  "\x7b\"error\":\"" ++ String.join (msg.data.map jsonEscapeChar) ++ "\"\x7d"

/-- Normalization of a successful MCP transport result
(server.js lines 103-114): the text of the first text-typed content item
when that text is truthy, otherwise the stringified whole result. -/
def normalizeMCPResult (stringifyResult : MCPResult → String) (result : MCPResult) : String :=
  match result.content with
  | some items =>
      match items.find? (fun item => item.type = "text") with
      | some item =>
          match item.text with
          | some t => if t = "" then stringifyResult result else t
          | none => stringifyResult result
      | none => stringifyResult result
  | none => stringifyResult result

/-- Model of executeToolCall (server.js lines 81-121).  The awaited
sequencing inside the try block is explicit Except propagation: falsy
(empty) argument text skips parsing (line 89); a parse failure is rethrown
with the Invalid-tool-arguments message (line 95); the outer catch
converts any propagated failure — parse failure or transport failure of
callStripeMCPTool — into the serialized error payload of line 119. -/
def executeToolCall {Args : Type} (parseJson : String → Option Args)
    (parseErrMsg : String → String) (emptyArgs : Args)
    (callTool : String → Args → Except String MCPResult)
    (stringifyResult : MCPResult → String)
    (toolName toolArguments : String) : String :=
  let parsedArgs : Except String Args :=
    if toolArguments = "" then Except.ok emptyArgs
    else
      match parseJson toolArguments with
      | some v => Except.ok v
      | none => Except.error ("Invalid tool arguments JSON: " ++ parseErrMsg toolArguments)
  let attempt : Except String String :=
    match parsedArgs with
    | Except.error e => Except.error e
    | Except.ok pa =>
        match callTool toolName pa with
        | Except.error e => Except.error e
        | Except.ok result => Except.ok (normalizeMCPResult stringifyResult result)
  match attempt with
  | Except.ok s => s
  | Except.error msg => jsonStringifyError msg

/-! ## Tool catalog (src/backend/lib/mcp/tools.js)

The module-level cache (cachedTools, cacheTimestamp) becomes an explicit
state value; Date.now() becomes the parameter now; the awaited
listStripeMCPTools() outcome becomes an Except parameter.  JSON object
blobs that the conversion merely forwards (property schemas) are modelled
by their serialized text. -/

/-- MCP input schema as read by the conversion (tools.js lines 33-37). -/
structure MCPInputSchema where
  type : Option String
  properties : Option String
  required : Option (List String)
deriving DecidableEq

/-- MCP tool definition as read by the conversion (tools.js lines 31-37). -/
structure MCPToolDef where
  name : String
  description : Option String
  inputSchema : Option MCPInputSchema
deriving DecidableEq

/-- Parameters object of an OpenAI-format tool. -/
structure OpenAIParameters where
  type : String
  properties : String
  required : Option (List String)
deriving DecidableEq

/-- Function object of an OpenAI-format tool. -/
structure OpenAIFunction where
  name : String
  description : String
  parameters : OpenAIParameters
deriving DecidableEq

/-- OpenAI-format tool definition (tools.js lines 28-44). -/
structure OpenAITool where
  type : String
  function : OpenAIFunction
deriving DecidableEq

/-- Model of convertMCPToolToOpenAI (tools.js lines 27-45). -/
def convertMCPToolToOpenAI (mcpTool : MCPToolDef) : OpenAITool :=
  { type := "function"
    function :=
      { name := mcpTool.name
        description := jsOrString mcpTool.description ("Execute " ++ mcpTool.name ++ " on Stripe")
        parameters :=
          match mcpTool.inputSchema with
          | some schema =>
              { type := jsOrString schema.type "object"
                properties := schema.properties.getD "\x7b\x7d"
                required := schema.required }
          | none => { type := "object", properties := "\x7b\x7d", required := none } } }

/-- Module-level cache state of tools.js (lines 14-15). -/
structure ToolsCache where
  cachedTools : Option (List OpenAITool)
  cacheTimestamp : Nat
deriving DecidableEq

/-- Cache time-to-live (tools.js line 16). -/
def CACHE_TTL : Nat := 60 * 60 * 1000

/-- Model of getStripeTools (tools.js lines 53-78): serve a valid cache
unless forceRefresh is set; otherwise fetch, replace the cache and its
timestamp on success, fall back to an existing cache on failure, and
propagate the failure when no cache exists. -/
def getStripeTools (listToolsOutcome : Except String (List MCPToolDef)) (now : Nat)
    (forceRefresh : Bool) (st : ToolsCache) :
    Except String (List OpenAITool) × ToolsCache :=
  match st.cachedTools with
  | some cached =>
      if ¬forceRefresh ∧ now - st.cacheTimestamp < CACHE_TTL then (Except.ok cached, st)
      else
        match listToolsOutcome with
        | Except.ok mcpTools =>
            let converted := mcpTools.map convertMCPToolToOpenAI
            (Except.ok converted, { cachedTools := some converted, cacheTimestamp := now })
        | Except.error _ => (Except.ok cached, st)
  | none =>
      match listToolsOutcome with
      | Except.ok mcpTools =>
          let converted := mcpTools.map convertMCPToolToOpenAI
          (Except.ok converted, { cachedTools := some converted, cacheTimestamp := now })
      | Except.error e => (Except.error e, st)

/-! ## Sampling-parameter defaulting and the provider request body
(server.js lines 35-36, 139-150, 209-210) -/

/-- Default temperature (server.js line 35). -/
def DEFAULT_TEMPERATURE : ℚ := 7 / 10

/-- Default max_tokens (server.js line 36). -/
def DEFAULT_MAX_TOKENS : Nat := 5000

/-- Model of req.body.temperature || DEFAULT_TEMPERATURE (server.js
line 209): an absent value and the falsy number 0 both select the
default. -/
def requestTemperature (bodyTemperature : Option ℚ) : ℚ :=
  match bodyTemperature with
  | none => DEFAULT_TEMPERATURE
  | some t => if t = 0 then DEFAULT_TEMPERATURE else t

/-- Model of req.body.max_tokens || DEFAULT_MAX_TOKENS (server.js
line 210). -/
def requestMaxTokens (bodyMaxTokens : Option Nat) : Nat :=
  match bodyMaxTokens with
  | none => DEFAULT_MAX_TOKENS
  | some t => if t = 0 then DEFAULT_MAX_TOKENS else t

/-- Request body sent to the model provider (makeDat1Request, server.js
lines 139-150); tools are included only when the list is non-empty. -/
structure Dat1RequestBody where
  messages : List ConvEntry
  temperature : ℚ
  stream : Bool
  max_tokens : Nat
  tools : Option (List OpenAITool)
deriving DecidableEq

/-- Construction of the provider request body (server.js lines 139-150). -/
def makeDat1RequestBody (messages : List ConvEntry) (tools : List OpenAITool)
    (temperature : ℚ) (maxTokens : Nat) : Dat1RequestBody :=
  { messages := messages
    temperature := temperature
    stream := true
    max_tokens := maxTokens
    tools := if 0 < tools.length then some tools else none }

/-! ## Orchestration loop (server.js lines 211-392)

The while loop runs while iterationCount < MAX_ITERATIONS; it is embedded
by structural recursion on the number of remaining iterations.  The
provider is a parameter mapping the current conversation to the decoded
chunks of its streaming response (the non-2xx and unreadable-body early
exits of lines 227-242 are never taken in any behavior a claim is about
and are not modelled).  exec stands for executeToolCall, which never
throws, so the per-call catch of lines 354-362 is unreachable. -/

/-- Gate deciding tool execution for a finished turn (server.js line 325):
the classification flag must be set AND the frozen list must be
non-empty. -/
def executesTools (st : TurnState) : Prop :=
  st.hasToolCalls = true ∧ 0 < st.toolCalls.length

instance (st : TurnState) : Decidable (executesTools st) :=
  inferInstanceAs (Decidable (_ ∧ _))

/-- Content of the assistant message pushed before execution
(server.js lines 330-334): accumulatedContent || null. -/
def assistantMessage (st : TurnState) : Message :=
  { role := "assistant"
    content := if st.accumulatedContent = "" then none else some st.accumulatedContent
    tool_calls := some st.toolCalls
    tool_call_id := none }

/-- Outcome of one chat-stream request: everything written to the client,
the final conversation value, and the number of provider round-trips
issued. -/
structure ChatOutcome where
  events : List RelayEvent
  conversation : List ConvEntry
  roundTrips : Nat
deriving DecidableEq

/-- Iteration structure of the while loop (server.js lines 216-392), by
recursion on the remaining iteration budget.  Exhausted budget is the
ceiling branch of lines 388-392; a tool-requiring turn pushes the
assistant message and the Promise.all results and loops (lines 325-374);
any other turn writes the captured finalData trailer if any, writes the
end sentinel and returns (lines 376-385). -/
def chatLoopAux (jsonParse : String → Option ParsedChunk) (genId : Nat → String)
    (exec : String → String → String) (provider : List ConvEntry → List String) :
    Nat → List ConvEntry → List RelayEvent → Nat → ChatOutcome
  | 0, conv, evs, rounds =>
      { events := evs ++ [RelayEvent.errorEvent "Maximum iterations reached"]
        conversation := conv
        roundTrips := rounds }
  | fuel + 1, conv, evs, rounds =>
      let turn := processTurn jsonParse genId (provider conv)
      let st := turn.1
      let evs := evs ++ turn.2
      if executesTools st then
        let conv := conv ++ [ConvEntry.msg (assistantMessage st)] ++ promiseAllResults exec st.toolCalls
        chatLoopAux jsonParse genId exec provider fuel conv evs (rounds + 1)
      else
        { events := evs ++
            (match st.finalData with
              | some d => [RelayEvent.finalData d]
              | none => []) ++ [RelayEvent.doneMarker]
          conversation := conv
          roundTrips := rounds + 1 }

/-- Iteration ceiling (server.js line 213). -/
def MAX_ITERATIONS : Nat := 10

/-- Whole chat-stream request handling for a given request conversation
(server.js lines 211-392). -/
def chatStream (jsonParse : String → Option ParsedChunk) (genId : Nat → String)
    (exec : String → String → String) (provider : List ConvEntry → List String)
    (messages : List ConvEntry) : ChatOutcome :=
  chatLoopAux jsonParse genId exec provider MAX_ITERATIONS messages [] 0

/-! ## Concrete instances used by witnesses and counterexamples

JSON.parse is instantiated by finite oracles mapping the payload strings
occurring in a scenario to their parsed shapes; all other strings fail to
parse, as they would under JSON.parse when not valid JSON. -/

/-- User message of the end-to-end balance scenario. -/
def userBalanceMsg : ConvEntry :=
  ConvEntry.msg { role := "user", content := some "check balance", tool_calls := none, tool_call_id := none }

/-- Fragment of turn 1 of the balance scenario: index 0, no id, name
retrieve_balance, empty arguments. -/
def c8Frag : ToolCallFragment :=
  { index := some 0, id := none, type := none
    function := some { name := some "retrieve_balance", arguments := some "" } }

/-- Parsed payload carrying the fragment delta of turn 1. -/
def c8Turn1Frag : ParsedChunk :=
  { choices := [{ delta := some { content := none, tool_calls := some [c8Frag] }, message := none, finish_reason := none }]
    usage := false, timings := false }

/-- Parsed payload carrying the finish_reason tool_calls signal. -/
def c8Turn1Fin : ParsedChunk :=
  { choices := [{ delta := none, message := none, finish_reason := some "tool_calls" }]
    usage := false, timings := false }

/-- Parsed payload carrying the content delta of turn 2. -/
def c8Turn2Content : ParsedChunk :=
  { choices := [{ delta := some { content := some "Your balance is $10.00", tool_calls := none }, message := none, finish_reason := none }]
    usage := false, timings := false }

/-- JSON.parse oracle of the balance scenario. -/
def c8JsonParse : String → Option ParsedChunk := fun s =>
  if s = "T1FRAG" then some c8Turn1Frag
  else if s = "T1FIN" then some c8Turn1Fin
  else if s = "T2CONTENT" then some c8Turn2Content
  else none

/-- Scripted provider of the balance scenario: the opening conversation of
one message gets the tool-calling turn, every later conversation gets the
content turn. -/
def c8Provider : List ConvEntry → List String := fun conv =>
  if conv.length = 1 then ["data: T1FRAG", "data: T1FIN"] else ["data: T2CONTENT"]

/-- Generated-id oracle standing for call_${Date.now()}_${index}. -/
def c8GenId : Nat → String := fun _ => "call_gen_0"

/-- Transport capability of the balance scenario: every call returns an MCP
result whose first text content item is the balance JSON. -/
def c8CallTool : String → Unit → Except String MCPResult := fun _ _ =>
  Except.ok { content := some [{ type := "text", text := some "\x7b\"available\":1000\x7d" }] }

/-- Tool executor of the balance scenario: executeToolCall instantiated
with the scenario transport. -/
def c8Exec : String → String → String :=
  executeToolCall (fun _ => none) (fun _ => "") () c8CallTool (fun _ => "")

/-- Whole run of the balance scenario. -/
def c8Run : ChatOutcome :=
  chatStream c8JsonParse c8GenId c8Exec c8Provider [userBalanceMsg]

/-- Assistant message the balance scenario pushes after turn 1. -/
def c8Assistant : Message :=
  { role := "assistant"
    content := none
    tool_calls := some [some { id := "call_gen_0", type := "function", function := { name := "retrieve_balance", arguments := "" } }]
    tool_call_id := none }

/-- Tool result message the balance scenario pushes after turn 1. -/
def c8ToolMsg : Message :=
  { role := "tool"
    content := some "\x7b\"available\":1000\x7d"
    tool_calls := none
    tool_call_id := some "call_gen_0" }


/-- Turn whose only signal is finish_reason tool_calls: the single chunk of
the turn is the finish payload of the balance scenario. -/
def finishOnlyTurn : TurnState :=
  (processTurn c8JsonParse c8GenId ["data: T1FIN"]).1

/-- Fragment at index 0 of the sparse-index scenario. -/
def c9Frag0 : ToolCallFragment :=
  { index := some 0, id := some "id_a", type := none
    function := some { name := some "tool_a", arguments := some "" } }

/-- Fragment at index 2 of the sparse-index scenario; index 1 never receives
a fragment. -/
def c9Frag2 : ToolCallFragment :=
  { index := some 2, id := some "id_c", type := none
    function := some { name := some "tool_c", arguments := some "" } }

/-- Parsed payload of turn 1 of the sparse-index scenario: fragments at
indices 0 and 2 plus the finish signal. -/
def c9Turn1 : ParsedChunk :=
  { choices := [{ delta := some { content := none, tool_calls := some [c9Frag0, c9Frag2] }, message := none, finish_reason := some "tool_calls" }]
    usage := false, timings := false }

/-- JSON.parse oracle of the sparse-index scenario. -/
def c9JsonParse : String → Option ParsedChunk := fun s =>
  if s = "C9T1" then some c9Turn1
  else if s = "T2CONTENT" then some c8Turn2Content
  else none

/-- Scripted provider of the sparse-index scenario. -/
def c9Provider : List ConvEntry → List String := fun conv =>
  if conv.length = 1 then ["data: C9T1"] else ["data: T2CONTENT"]

/-- Whole run of the sparse-index scenario. -/
def c9Run : ChatOutcome :=
  chatStream c9JsonParse c8GenId c8Exec c9Provider [userBalanceMsg]


/-- First parsed payload of the two-record chunk. -/
def c4PayloadA : ParsedChunk := { choices := [], usage := true, timings := false }

/-- Second parsed payload of the two-record chunk. -/
def c4PayloadB : ParsedChunk := { choices := [], usage := false, timings := true }

/-- JSON.parse oracle under which both records of the two-record chunk are
valid payloads. -/
def c4JsonParse : String → Option ParsedChunk := fun s =>
  if s = "A" then some c4PayloadA
  else if s = "B" then some c4PayloadB
  else none

/-- Chunk holding two complete newline-delimited data records. -/
def c4TwoRecordChunk : String := "data: A\ndata: B"


/-- Parsed payload that always requests one tool call, used to script a
model that never stops calling tools. -/
def c5FragChunk : ParsedChunk :=
  { choices := [{ delta := some { content := none, tool_calls := some [c8Frag] }, message := none, finish_reason := none }]
    usage := false, timings := false }

/-- JSON.parse oracle of the always-tools scenario. -/
def c5JsonParse : String → Option ParsedChunk := fun s =>
  if s = "FRAG" then some c5FragChunk else none

/-- Provider that requests a tool call on every turn. -/
def c5Provider : List ConvEntry → List String := fun _ => ["data: FRAG"]


/-- Recognizer of undefined conversation entries. -/
def isUndef : ConvEntry → Bool
  | ConvEntry.undef => true
  | ConvEntry.msg _ => false

/-- Generated-id oracle of the accumulator witness. -/
def c2GenId : Nat → String := fun _ => "call_gen_w"

/-- First fragment of the accumulator witness: no id, a name, and the
opening of the arguments text. -/
def c2F0 : ToolCallFragment :=
  { index := some 0, id := none, type := none
    function := some { name := some "create_customer", arguments := some "\x7b\"na" } }

/-- Second fragment of the accumulator witness: supplies an id and more
arguments text. -/
def c2F1 : ToolCallFragment :=
  { index := some 0, id := some "call_9", type := none
    function := some { name := none, arguments := some "me\":\"Jo\"" } }

/-- Third fragment of the accumulator witness: empty id and empty name
(must not blank out the known values) and the closing arguments text. -/
def c2F2 : ToolCallFragment :=
  { index := some 0, id := some "", type := none
    function := some { name := some "", arguments := some "\x7d" } }

/-- Argument JSON parser of the executor witness: rejects everything, as
JSON.parse does on malformed text. -/
def c3ParseJson : String → Option Unit := fun _ => none

/-- Parse-exception message oracle of the executor witness. -/
def c3ParseErrMsg : String → String := fun _ => "Unexpected token"

/-- Transport of the executor witness: always fails. -/
def c3CallTool : String → Unit → Except String MCPResult := fun _ _ =>
  Except.error "MCP server error: 503"

/-- Result serializer of the executor witness. -/
def c3Stringify : MCPResult → String := fun _ => "null"

/-- Chunk of the chunk-parser witness: a non-data line and an unparsable
data record before the first parsable record, and a further record after
it. -/
def c4WitnessChunk : String := "event: x\ndata: nope\ndata: A\ndata: B"

/-- First tool call of the ordering witness. -/
def c6CallA : ToolCall :=
  { id := "call_a", type := "function", function := { name := "retrieve_balance", arguments := "" } }

/-- Second tool call of the ordering witness. -/
def c6CallB : ToolCall :=
  { id := "call_b", type := "function", function := { name := "list_products", arguments := "" } }

/-- Third tool call of the ordering witness. -/
def c6CallC : ToolCall :=
  { id := "call_c", type := "function", function := { name := "list_customers", arguments := "" } }

/-- Executor of the ordering witness. -/
def c6Exec : String → String → String := fun n _ => n ++ ":ok"

/-- Completion order induced by staggered latencies of 30ms, 10ms and 20ms
for tasks 0, 1 and 2: task 1 completes first, then task 2, then task 0. -/
def c6Order : List Nat := [1, 2, 0]

/-- Converted tool of the catalog witness. -/
def c7Tool : OpenAITool :=
  convertMCPToolToOpenAI { name := "retrieve_balance", description := none, inputSchema := none }

/-- Catalog cache state holding one converted tool. -/
def c7CacheSome : ToolsCache := { cachedTools := some [c7Tool], cacheTimestamp := 100 }

/-- Catalog cache state before any successful fetch. -/
def c7CacheNone : ToolsCache := { cachedTools := none, cacheTimestamp := 0 }

/-- Sparse tool-call list of the Promise.all witness: a hole at index 1. -/
def c9WitnessTcs : List (Option ToolCall) := [some c6CallA, none, some c6CallC]

/-! ## Helper lemmas: sparse arrays -/

theorem getSlot_setSlot_self {α : Type} : ∀ (l : List (Option α)) (i : Nat) (v : α),
    getSlot (setSlot l i v) i = some v
  | [], 0, _ => rfl
  | [], i + 1, v => getSlot_setSlot_self [] i v
  | _ :: _, 0, _ => rfl
  | _ :: xs, i + 1, v => getSlot_setSlot_self xs i v

theorem setSlot_length_of_lt {α : Type} : ∀ (l : List (Option α)) (i : Nat) (v : α),
    i < l.length → (setSlot l i v).length = l.length
  | _ :: _, 0, _, _ => rfl
  | x :: xs, i + 1, v, h => by
      simpa [setSlot] using setSlot_length_of_lt xs i v (by simpa using h)

theorem getElem?_setSlot_self {α : Type} : ∀ (l : List (Option α)) (i : Nat) (v : α),
    i < l.length → (setSlot l i v)[i]? = some (some v)
  | _ :: _, 0, _, _ => by simp [setSlot]
  | x :: xs, i + 1, v, h => by
      simpa [setSlot] using getElem?_setSlot_self xs i v (by simpa using h)

theorem getElem?_setSlot_ne {α : Type} : ∀ (l : List (Option α)) (i j : Nat) (v : α),
    i < l.length → j ≠ i → (setSlot l i v)[j]? = l[j]?
  | _ :: _, 0, 0, _, _, hne => absurd rfl hne
  | _ :: _, 0, _ + 1, _, _, _ => by simp [setSlot]
  | x :: xs, i + 1, 0, v, _, _ => by simp [setSlot]
  | x :: xs, i + 1, j + 1, v, h, hne => by
      simpa [setSlot] using
        getElem?_setSlot_ne xs i j v (by simpa using h) (fun hj => hne (by simp [hj]))

/-! ## Helper lemmas: truthiness folds and concatenation -/

theorem jsOrString_eq_truthyOpt (x : Option String) (d : String) :
    jsOrString x d = (truthyOpt x).getD d := by
  cases x with
  | none => rfl
  | some s =>
      by_cases h : s = "" <;> simp [jsOrString, truthyOpt, h]

theorem truthyOpt_getD_eq_ite (x : Option String) (d : String) :
    (truthyOpt x).getD d = if truthyString x = true then x.getD "" else d := by
  cases x with
  | none => rfl
  | some s =>
      by_cases h : s = "" <;> simp [truthyOpt, truthyString, h]

theorem lastTruthyStep_none (x : Option String) : lastTruthyStep none x = truthyOpt x := by
  cases x with
  | none => rfl
  | some s => by_cases h : s = "" <;> simp [lastTruthyStep, truthyOpt, h]

theorem foldl_lastTruthyStep : ∀ (xs : List (Option String)) (acc : Option String),
    xs.foldl lastTruthyStep acc =
      (match lastTruthy xs with
        | some s => some s
        | none => acc)
  | [], acc => rfl
  | x :: xs, acc => by
      have hx : lastTruthy (x :: xs) = xs.foldl lastTruthyStep (lastTruthyStep none x) := by
        simp [lastTruthy]
      rw [List.foldl_cons, foldl_lastTruthyStep xs (lastTruthyStep acc x), hx,
        foldl_lastTruthyStep xs (lastTruthyStep none x)]
      cases hlt : lastTruthy xs with
      | some s => rfl
      | none =>
          cases x with
          | none => rfl
          | some s => by_cases h : s = "" <;> simp [lastTruthyStep, h]

theorem lastTruthy_cons (x : Option String) (xs : List (Option String)) :
    lastTruthy (x :: xs) =
      (match lastTruthy xs with
        | some s => some s
        | none => truthyOpt x) := by
  have : lastTruthy (x :: xs) = xs.foldl lastTruthyStep (lastTruthyStep none x) := by
    simp [lastTruthy]
  rw [this, foldl_lastTruthyStep, lastTruthyStep_none]

theorem match_getD (o₂ o₁ : Option String) (d : String) :
    ((match o₂ with
      | some s => some s
      | none => o₁) : Option String).getD d = o₂.getD (o₁.getD d) := by
  cases o₂ <;> rfl

theorem concatAll_nil : concatAll [] = "" := rfl

theorem foldl_append_concatAll : ∀ (l : List String) (acc : String),
    l.foldl (fun a b => a ++ b) acc = acc ++ concatAll l
  | [], acc => by simp [concatAll]
  | x :: l, acc => by
      have h1 := foldl_append_concatAll l (acc ++ x)
      have h2 := foldl_append_concatAll l ("" ++ x)
      simp only [List.foldl_cons] at h1 h2 ⊢
      rw [h1, String.append_assoc]
      congr 1
      have : concatAll (x :: l) = List.foldl (fun a b => a ++ b) ("" ++ x) l := by
        simp [concatAll]
      rw [this, h2]
      simp

theorem concatAll_cons (x : String) (l : List String) :
    concatAll (x :: l) = x ++ concatAll l := by
  have : concatAll (x :: l) = List.foldl (fun a b => a ++ b) ("" ++ x) l := by
    simp [concatAll]
  rw [this, foldl_append_concatAll]
  simp

/-! ## Helper lemmas: the tool-call accumulator -/

theorem getSlot_nil {α : Type} (i : Nat) : getSlot ([] : List (Option α)) i = none := by
  cases i <;> rfl

theorem applyFragment_create (genId : Nat → String) (i : Nat) (f : ToolCallFragment)
    (tcs : List (Option ToolCall)) (hidx : f.index = some i) (h : getSlot tcs i = none) :
    applyFragment genId tcs f =
      setSlot tcs i
        { id := jsOrString f.id (genId i)
          type := jsOrString f.type "function"
          function := { name := jsOrString (fragName f) "", arguments := fragArgDelta f } } := by
  unfold applyFragment
  rw [hidx]
  simp [h, fragName, fragArgDelta]

theorem applyFragment_existing (genId : Nat → String) (i : Nat) (f : ToolCallFragment)
    (tcs : List (Option ToolCall)) (tc : ToolCall)
    (hidx : f.index = some i) (h : getSlot tcs i = some tc) :
    applyFragment genId tcs f =
      setSlot tcs i
        { id := (truthyOpt f.id).getD tc.id
          type := tc.type
          function := { name := (truthyOpt (fragName f)).getD tc.function.name
                        arguments := tc.function.arguments ++ fragArgDelta f } } := by
  unfold applyFragment
  rw [hidx]
  simp only [Option.getD_some, h]
  rw [truthyOpt_getD_eq_ite, truthyOpt_getD_eq_ite]
  simp only [fragName, fragArgDelta]
  by_cases hid : truthyString f.id = true <;>
    by_cases hnm : truthyString (f.function.bind fun ff => ff.name) = true <;>
      simp [hid, hnm]

theorem applyFragment_append_phase (genId : Nat → String) (i : Nat) :
    ∀ (rest : List ToolCallFragment) (tcs : List (Option ToolCall)) (tc : ToolCall),
      getSlot tcs i = some tc → (∀ f ∈ rest, f.index = some i) →
      getSlot (rest.foldl (applyFragment genId) tcs) i =
        some { id := (lastTruthy (rest.map (fun f => f.id))).getD tc.id
               type := tc.type
               function := { name := (lastTruthy (rest.map fragName)).getD tc.function.name
                             arguments := tc.function.arguments ++ concatAll (rest.map fragArgDelta) } }
  | [], tcs, tc, h, _ => by
      simpa [lastTruthy, concatAll] using h
  | f :: rest, tcs, tc, h, hall => by
      have hidx : f.index = some i := hall f (List.mem_cons_self f rest)
      rw [List.foldl_cons, applyFragment_existing genId i f tcs tc hidx h]
      have hslot := getSlot_setSlot_self tcs i
        { id := (truthyOpt f.id).getD tc.id
          type := tc.type
          function := { name := (truthyOpt (fragName f)).getD tc.function.name
                        arguments := tc.function.arguments ++ fragArgDelta f } }
      rw [applyFragment_append_phase genId i rest _ _ hslot
        (fun g hg => hall g (List.mem_cons_of_mem f hg))]
      simp only [List.map_cons, lastTruthy_cons, match_getD, concatAll_cons,
        String.append_assoc]

/-! ## Helper lemmas: turn classification -/

theorem processChunk_hasToolCalls (jp : String → Option ParsedChunk) (genId : Nat → String)
    (st : TurnState) (chunk : String) :
    (processChunk jp genId st chunk).1.hasToolCalls =
      (st.hasToolCalls ||
        (match parseSSEChunk jp chunk with
          | some p => chunkToolSignal p
          | none => false)) := by
  unfold processChunk
  cases hp : parseSSEChunk jp chunk with
  | none => simp
  | some p =>
      cases hc : p.choices.head? with
      | none => simp [chunkToolSignal, hc]
      | some c =>
          obtain ⟨cd, cm, cf⟩ := c
          cases cd with
          | none =>
              cases cm with
              | none =>
                  by_cases hf : cf = some "tool_calls" <;>
                    by_cases hu : (p.usage || p.timings) = true <;>
                      simp [chunkToolSignal, hc, hf, hu]
              | some m =>
                  obtain ⟨mtc⟩ := m
                  cases mtc <;>
                    by_cases hf : cf = some "tool_calls" <;>
                      by_cases hu : (p.usage || p.timings) = true <;>
                        simp [chunkToolSignal, hc, hf, hu]
          | some d =>
              obtain ⟨dc, dtc⟩ := d
              cases dtc with
              | none =>
                  cases cm with
                  | none =>
                      by_cases hct : truthyString dc = true <;>
                        by_cases hf : cf = some "tool_calls" <;>
                          by_cases hu : (p.usage || p.timings) = true <;>
                            simp [chunkToolSignal, hc, hct, hf, hu]
                  | some m =>
                      obtain ⟨mtc⟩ := m
                      cases mtc <;>
                        by_cases hct : truthyString dc = true <;>
                          by_cases hf : cf = some "tool_calls" <;>
                            by_cases hu : (p.usage || p.timings) = true <;>
                              simp [chunkToolSignal, hc, hct, hf, hu]
              | some frags =>
                  cases cm with
                  | none =>
                      by_cases hct : truthyString dc = true <;>
                        by_cases hf : cf = some "tool_calls" <;>
                          by_cases hu : (p.usage || p.timings) = true <;>
                            simp [chunkToolSignal, hc, hct, hf, hu]
                  | some m =>
                      obtain ⟨mtc⟩ := m
                      cases mtc <;>
                        by_cases hct : truthyString dc = true <;>
                          by_cases hf : cf = some "tool_calls" <;>
                            by_cases hu : (p.usage || p.timings) = true <;>
                              simp [chunkToolSignal, hc, hct, hf, hu]

theorem processTurn_foldl_hasToolCalls (jp : String → Option ParsedChunk) (genId : Nat → String) :
    ∀ (chunks : List String) (st : TurnState) (evs : List RelayEvent),
      (chunks.foldl (processTurnStep jp genId) (st, evs)).1.hasToolCalls =
        (st.hasToolCalls || (chunks.filterMap (parseSSEChunk jp)).any chunkToolSignal)
  | [], st, evs => by simp
  | chunk :: chunks, st, evs => by
      rw [List.foldl_cons,
        show processTurnStep jp genId (st, evs) chunk =
          ((processChunk jp genId st chunk).1, evs ++ (processChunk jp genId st chunk).2) from rfl,
        processTurn_foldl_hasToolCalls jp genId chunks _ _, processChunk_hasToolCalls]
      cases hp : parseSSEChunk jp chunk <;> simp [hp, List.filterMap_cons, Bool.or_assoc]

theorem processTurn_hasToolCalls (jp : String → Option ParsedChunk) (genId : Nat → String)
    (chunks : List String) :
    (processTurn jp genId chunks).1.hasToolCalls =
      (chunks.filterMap (parseSSEChunk jp)).any chunkToolSignal := by
  unfold processTurn
  rw [processTurn_foldl_hasToolCalls]
  simp [initialTurnState]

/-! ## Helper lemmas: relayed events of a turn carry no error records -/

theorem processChunk_events_no_error (jp : String → Option ParsedChunk) (genId : Nat → String)
    (st : TurnState) (chunk : String) :
    ((processChunk jp genId st chunk).2).countP isErrorEvent = 0 := by
  cases hp : parseSSEChunk jp chunk with
  | none =>
      by_cases hdone : jsIncludes chunk "[DONE]" = true <;>
        simp [processChunk, hp, hdone, isErrorEvent]
  | some p =>
      cases hc : p.choices.head? with
      | none => simp [processChunk, hp, hc]
      | some c =>
          obtain ⟨cd, cm, cf⟩ := c
          cases cd with
          | none => simp [processChunk, hp, hc]
          | some d =>
              obtain ⟨dc, dtc⟩ := d
              cases dtc <;>
                by_cases hct : truthyString dc = true <;>
                  simp [processChunk, hp, hc, hct, isErrorEvent]

theorem processTurn_foldl_events_countP (jp : String → Option ParsedChunk) (genId : Nat → String) :
    ∀ (chunks : List String) (st : TurnState) (evs : List RelayEvent),
      ((chunks.foldl (processTurnStep jp genId) (st, evs)).2).countP isErrorEvent =
        evs.countP isErrorEvent
  | [], _, _ => rfl
  | chunk :: chunks, st, evs => by
      rw [List.foldl_cons,
        show processTurnStep jp genId (st, evs) chunk =
          ((processChunk jp genId st chunk).1, evs ++ (processChunk jp genId st chunk).2) from rfl,
        processTurn_foldl_events_countP jp genId chunks _ _, List.countP_append,
        processChunk_events_no_error]
      omega

theorem processTurn_events_countP (jp : String → Option ParsedChunk) (genId : Nat → String)
    (chunks : List String) :
    ((processTurn jp genId chunks).2).countP isErrorEvent = 0 := by
  unfold processTurn
  rw [processTurn_foldl_events_countP]
  rfl

/-! ## Helper lemmas: the iteration ceiling -/

theorem chatLoopAux_ceiling (jp : String → Option ParsedChunk) (genId : Nat → String)
    (exec : String → String → String) (provider : List ConvEntry → List String)
    (h : ∀ conv, executesTools (processTurn jp genId (provider conv)).1) :
    ∀ (fuel : Nat) (conv : List ConvEntry) (evs : List RelayEvent) (rounds : Nat),
      (chatLoopAux jp genId exec provider fuel conv evs rounds).roundTrips = rounds + fuel ∧
      ((chatLoopAux jp genId exec provider fuel conv evs rounds).events).countP isErrorEvent =
        evs.countP isErrorEvent + 1 ∧
      ((chatLoopAux jp genId exec provider fuel conv evs rounds).events).getLast? =
        some (RelayEvent.errorEvent "Maximum iterations reached")
  | 0, conv, evs, rounds => by
      refine ⟨rfl, ?_, ?_⟩
      · simp [chatLoopAux, List.countP_append, isErrorEvent]
      · simp [chatLoopAux]
  | fuel + 1, conv, evs, rounds => by
      have hex := h conv
      have ih := chatLoopAux_ceiling jp genId exec provider h fuel
        (conv ++ [ConvEntry.msg (assistantMessage (processTurn jp genId (provider conv)).1)] ++
          promiseAllResults exec (processTurn jp genId (provider conv)).1.toolCalls)
        (evs ++ (processTurn jp genId (provider conv)).2) (rounds + 1)
      simp only [chatLoopAux]
      rw [if_pos hex]
      refine ⟨?_, ?_, ih.2.2⟩
      · rw [ih.1]; omega
      · rw [ih.2.1, List.countP_append, processTurn_events_countP]

/-! ## Helper lemmas: the line scan of the chunk parser -/

theorem parseSSELines_skip (jp : String → Option ParsedChunk) (line : String)
    (rest : List String) (h : skippedLine jp line) :
    parseSSELines jp (line :: rest) = parseSSELines jp rest := by
  rcases h with h | ⟨hdone, hparse⟩
  · simp [parseSSELines, h]
  · by_cases hd : jsStartsWith line "data: " = true <;>
      simp [parseSSELines, hd, hdone, hparse]

theorem parseSSELines_first (jp : String → Option ParsedChunk) :
    ∀ (pre : List String) (line : String) (post : List String) (p : ParsedChunk),
      (∀ l ∈ pre, skippedLine jp l) →
      jsStartsWith line "data: " = true →
      jsSlice line 6 ≠ "[DONE]" →
      jp (jsSlice line 6) = some p →
      parseSSELines jp (pre ++ line :: post) = some p
  | [], line, post, p, _, hd, hdone, hp => by
      simp [parseSSELines, hd, hdone, hp]
  | l :: pre, line, post, p, hpre, hd, hdone, hp => by
      rw [List.cons_append, parseSSELines_skip jp l _ (hpre l (List.mem_cons_self l pre))]
      exact parseSSELines_first jp pre line post p
        (fun g hg => hpre g (List.mem_cons_of_mem l hg)) hd hdone hp

/-! ## Helper lemmas: order-independence of Promise.all gathering -/

theorem lt_length_of_getElem?_some {α : Type} {l : List α} {i : Nat} {v : α}
    (h : l[i]? = some v) : i < l.length := by
  by_contra hge
  rw [List.getElem?_eq_none (by omega)] at h
  exact Option.noConfusion h

theorem gather_foldl_length {α : Type} (tasks : List α) :
    ∀ (order : List Nat) (table : List (Option α)), table.length = tasks.length →
      (order.foldl
        (fun table i =>
          match tasks[i]? with
          | some v => setSlot table i v
          | none => table) table).length = tasks.length
  | [], _, h => h
  | i :: order, table, h => by
      rw [List.foldl_cons]
      apply gather_foldl_length tasks order
      cases hv : tasks[i]? with
      | none => exact h
      | some v =>
          have hi : i < tasks.length := lt_length_of_getElem?_some hv
          simpa [setSlot_length_of_lt table i v (h ▸ hi)] using h

theorem gather_foldl_getElem? {α : Type} (tasks : List α) :
    ∀ (order : List Nat) (table : List (Option α)), table.length = tasks.length → ∀ (j : Nat),
      (order.foldl
        (fun table i =>
          match tasks[i]? with
          | some v => setSlot table i v
          | none => table) table)[j]? =
        if j ∈ order ∧ j < tasks.length then (tasks[j]?).map some else table[j]?
  | [], table, _, j => by simp
  | i :: order, table, h, j => by
      have hlen : (match tasks[i]? with
          | some v => setSlot table i v
          | none => table).length = tasks.length := by
        cases hv : tasks[i]? with
        | none => exact h
        | some v =>
            have hi : i < tasks.length := lt_length_of_getElem?_some hv
            simpa [setSlot_length_of_lt table i v (h ▸ hi)] using h
      rw [List.foldl_cons, gather_foldl_getElem? tasks order _ hlen j]
      by_cases hjo : j ∈ order ∧ j < tasks.length
      · rw [if_pos hjo, if_pos ⟨List.mem_cons_of_mem i hjo.1, hjo.2⟩]
      · rw [if_neg hjo]
        by_cases hji : j = i
        · subst hji
          by_cases hjn : j < tasks.length
          · obtain ⟨v, hv⟩ : ∃ v, tasks[j]? = some v :=
              ⟨_, List.getElem?_eq_getElem hjn⟩
            rw [if_pos ⟨List.mem_cons_self j order, hjn⟩, hv]
            simp only [hv]
            rw [getElem?_setSlot_self table j v (h ▸ hjn)]
            rfl
          · have hv : tasks[j]? = none := List.getElem?_eq_none (by omega)
            rw [if_neg (fun hcon => hjn hcon.2)]
            simp only [hv]
        · have hstep : (match tasks[i]? with
              | some v => setSlot table i v
              | none => table)[j]? = table[j]? := by
            cases hv : tasks[i]? with
            | none => rfl
            | some v =>
                have hi : i < tasks.length := lt_length_of_getElem?_some hv
                exact getElem?_setSlot_ne table i j v (h ▸ hi) hji
          rw [hstep, if_neg]
          rintro ⟨hmem, hlt⟩
          rcases List.mem_cons.mp hmem with hcon | hcon
          · exact hji hcon
          · exact hjo ⟨hcon, hlt⟩

theorem gatherByCompletion_perm {α : Type} (tasks : List α) (order : List Nat)
    (h : order.Perm (List.range tasks.length)) :
    gatherByCompletion tasks order = tasks.map some := by
  apply List.ext_getElem?
  intro j
  unfold gatherByCompletion
  rw [gather_foldl_getElem? tasks order _ (by simp) j]
  have hmem : j ∈ order ↔ j < tasks.length := by rw [h.mem_iff, List.mem_range]
  by_cases hj : j < tasks.length
  · rw [if_pos ⟨hmem.mpr hj, hj⟩, List.getElem?_map]
  · rw [if_neg (fun hcon => hj hcon.2), List.getElem?_map,
      List.getElem?_eq_none (by simpa using hj),
      List.getElem?_eq_none (Nat.not_lt.mp hj)]
    rfl

/-! ## Helper lemmas: Promise.all over sparse arrays -/

theorem promiseAllResults_undef_count (exec : String → String → String) :
    ∀ (tcs : List (Option ToolCall)),
      (promiseAllResults exec tcs).countP isUndef = tcs.countP (fun o => o.isNone)
  | [] => rfl
  | o :: t => by
      have ih := promiseAllResults_undef_count exec t
      rw [promiseAllResults] at ih ⊢
      rw [List.map_cons, List.countP_cons, List.countP_cons, ih]
      cases o <;> simp [isUndef]

theorem getSlot_eq_join {α : Type} : ∀ (l : List (Option α)) (i : Nat),
    getSlot l i = (l[i]?).join
  | [], i => by simp [getSlot_nil]
  | x :: xs, 0 => by simp [getSlot]
  | x :: xs, i + 1 => by simp [getSlot, getSlot_eq_join xs i]

/-! ## Claim theorems -/

/-- C1 counterexample: a turn whose only signal is finish_reason
tool_calls (the single chunk parses to a choice with that finish reason
and nothing else) sets the classification flag, yet leaves the frozen list
empty, so the execution gate of server.js line 325 does not fire — the
claim that this turn still triggers tool execution is false. -/
theorem finish_reason_only_turn_does_not_execute :
    finishOnlyTurn.hasToolCalls = true ∧ finishOnlyTurn.toolCalls = [] ∧
      ¬ executesTools finishOnlyTurn := by decide

/-- C1 (amended): tool calls are executed for a turn if and only if at
least one of the three signals was seen (fragment delta, direct
message.tool_calls list, or finish_reason tool_calls) AND the frozen
tool-call list is non-empty; a finish_reason-only turn satisfies the
first conjunct but not the second. -/
theorem toolExecution_iff_signal_and_nonempty_list (jp : String → Option ParsedChunk)
    (genId : Nat → String) (chunks : List String) :
    executesTools (processTurn jp genId chunks).1 ↔
      ((chunks.filterMap (parseSSEChunk jp)).any chunkToolSignal = true ∧
        (processTurn jp genId chunks).1.toolCalls ≠ []) := by
  unfold executesTools
  rw [processTurn_hasToolCalls]
  constructor
  · rintro ⟨h1, h2⟩
    exact ⟨h1, List.length_pos.mp h2⟩
  · rintro ⟨h1, h2⟩
    exact ⟨h1, List.length_pos.mpr h2⟩

/-- C2: folding any non-empty fragment sequence that shares one index into
an empty accumulator leaves, at that index, a builder whose arguments are
the concatenation of all argument deltas in arrival order, whose id is the
last truthy id supplied (defaulting to the generated id when none ever
was), and whose name is the last truthy name supplied (defaulting to the
empty string); absent or empty id/name values never blank out known
data. -/
theorem accumulator_concat_and_last_truthy (genId : Nat → String) (i : Nat)
    (f0 : ToolCallFragment) (rest : List ToolCallFragment)
    (h0 : f0.index = some i) (hrest : ∀ f ∈ rest, f.index = some i) :
    getSlot ((f0 :: rest).foldl (applyFragment genId) []) i =
      some { id := (lastTruthy ((f0 :: rest).map (fun f => f.id))).getD (genId i)
             type := jsOrString f0.type "function"
             function := { name := (lastTruthy ((f0 :: rest).map fragName)).getD ""
                           arguments := concatAll ((f0 :: rest).map fragArgDelta) } } := by
  rw [List.foldl_cons, applyFragment_create genId i f0 [] h0 (getSlot_nil i),
    applyFragment_append_phase genId i rest _ _ (getSlot_setSlot_self [] i _) hrest]
  simp only [List.map_cons, lastTruthy_cons, match_getD, concatAll_cons,
    jsOrString_eq_truthyOpt]

/-- Witness for C2: three fragments at index 0 — the id arrives in the
second fragment and an empty id and name in the third — produce the
concatenated arguments, keep the id call_9, and keep the name. -/
theorem accumulator_concat_and_last_truthy_witness :
    getSlot ([c2F0, c2F1, c2F2].foldl (applyFragment c2GenId) []) 0 =
      some { id := "call_9", type := "function",
             function := { name := "create_customer", arguments := "\x7b\"name\":\"Jo\"\x7d" } } :=
  (accumulator_concat_and_last_truthy c2GenId 0 c2F0 [c2F1, c2F2] rfl (by decide)).trans
    (by decide)

/-- C3: executeToolCall converts both failure modes into the serialized
structured error payload instead of propagating them — a JSON parse
failure of non-empty argument text becomes the Invalid-tool-arguments
payload, and a transport failure of callStripeMCPTool (with empty or with
successfully parsed arguments) becomes the payload carrying the transport
error message.  Totality of the returned text is by construction: the
embedding returns a String for every input. -/
theorem executeToolCall_error_containment {Args : Type} (parseJson : String → Option Args)
    (parseErrMsg : String → String) (emptyArgs : Args)
    (callTool : String → Args → Except String MCPResult)
    (stringifyResult : MCPResult → String) (name args : String) :
    (args ≠ "" → parseJson args = none →
      executeToolCall parseJson parseErrMsg emptyArgs callTool stringifyResult name args =
        jsonStringifyError ("Invalid tool arguments JSON: " ++ parseErrMsg args)) ∧
    (∀ e, args = "" → callTool name emptyArgs = Except.error e →
      executeToolCall parseJson parseErrMsg emptyArgs callTool stringifyResult name args =
        jsonStringifyError e) ∧
    (∀ v e, args ≠ "" → parseJson args = some v → callTool name v = Except.error e →
      executeToolCall parseJson parseErrMsg emptyArgs callTool stringifyResult name args =
        jsonStringifyError e) := by
  refine ⟨?_, ?_, ?_⟩
  · intro hne hp
    simp [executeToolCall, hne, hp]
  · intro e he0 hct
    subst he0
    simp [executeToolCall, hct]
  · intro v e hne hp hct
    simp [executeToolCall, hne, hp, hct]

/-- Witness for C3: malformed argument text yields the parse-error
payload, and a failing transport with empty arguments yields the
transport-error payload. -/
theorem executeToolCall_error_containment_witness :
    executeToolCall c3ParseJson c3ParseErrMsg () c3CallTool c3Stringify "retrieve_balance" "not json" =
      jsonStringifyError ("Invalid tool arguments JSON: " ++ c3ParseErrMsg "not json") ∧
    executeToolCall c3ParseJson c3ParseErrMsg () c3CallTool c3Stringify "retrieve_balance" "" =
      jsonStringifyError "MCP server error: 503" :=
  ⟨(executeToolCall_error_containment c3ParseJson c3ParseErrMsg () c3CallTool c3Stringify
      "retrieve_balance" "not json").1 (by decide) rfl,
   (executeToolCall_error_containment c3ParseJson c3ParseErrMsg () c3CallTool c3Stringify
      "retrieve_balance" "").2.1 "MCP server error: 503" rfl rfl⟩

/-- C4 counterexample: the chunk holding the two complete records data: A
and data: B, both parsable under the given oracle, yields only the event
of the first record — not one event per record. -/
theorem two_records_yield_one_event :
    parseSSEChunk c4JsonParse c4TwoRecordChunk = some c4PayloadA ∧
    c4JsonParse "B" = some c4PayloadB ∧ c4PayloadA ≠ c4PayloadB := by decide

/-- C4 (amended): the chunk parser emits at most one event per chunk —
splitting the chunk on newlines, lines before the first parsable data
record are skipped silently (non-data lines and unparsable payloads never
fail), that first record's payload is the single emitted event, and every
record after it is dropped, whatever it holds. -/
theorem parseSSEChunk_first_record_only (jp : String → Option ParsedChunk) (chunk : String)
    (pre : List String) (line : String) (post : List String) (p : ParsedChunk)
    (hsplit : jsSplit chunk '\n' = pre ++ line :: post)
    (hpre : ∀ l ∈ pre, skippedLine jp l)
    (hd : jsStartsWith line "data: " = true)
    (hdone : jsSlice line 6 ≠ "[DONE]")
    (hp : jp (jsSlice line 6) = some p) :
    parseSSEChunk jp chunk = some p ∧ (parseSSEChunk jp chunk).toList.length = 1 := by
  have h1 : parseSSEChunk jp chunk = some p := by
    unfold parseSSEChunk
    rw [hsplit]
    exact parseSSELines_first jp pre line post p hpre hd hdone hp
  exact ⟨h1, by rw [h1]; rfl⟩

/-- Witness for C4 (amended): in a chunk with a non-data line, an
unparsable record, and two parsable records, exactly the first parsable
record's payload is emitted. -/
theorem parseSSEChunk_first_record_only_witness :
    parseSSEChunk c4JsonParse c4WitnessChunk = some c4PayloadA ∧
    (parseSSEChunk c4JsonParse c4WitnessChunk).toList.length = 1 :=
  parseSSEChunk_first_record_only c4JsonParse c4WitnessChunk
    ["event: x", "data: nope"] "data: A" ["data: B"] c4PayloadA
    (by decide) (by decide) (by decide) (by decide) (by decide)

/-- C5: whenever every provider turn classifies as tool-requiring, the
loop issues exactly MAX_ITERATIONS provider round-trips, writes exactly
one error event — the Maximum-iterations-reached record, which is the last
event written — and terminates. -/
theorem ceiling_exactly_max_iterations (jp : String → Option ParsedChunk)
    (genId : Nat → String) (exec : String → String → String)
    (provider : List ConvEntry → List String) (messages : List ConvEntry)
    (h : ∀ conv, executesTools (processTurn jp genId (provider conv)).1) :
    (chatStream jp genId exec provider messages).roundTrips = MAX_ITERATIONS ∧
    ((chatStream jp genId exec provider messages).events).countP isErrorEvent = 1 ∧
    ((chatStream jp genId exec provider messages).events).getLast? =
      some (RelayEvent.errorEvent "Maximum iterations reached") := by
  have hc := chatLoopAux_ceiling jp genId exec provider h MAX_ITERATIONS messages [] 0
  unfold chatStream
  exact ⟨by simpa using hc.1, by simpa using hc.2.1, hc.2.2⟩

/-- Witness for C5: the scripted model that requests one tool call on
every turn drives the loop to exactly 10 round-trips and the single
ceiling error event. -/
theorem ceiling_exactly_max_iterations_witness :
    (chatStream c5JsonParse c8GenId c8Exec c5Provider [userBalanceMsg]).roundTrips = MAX_ITERATIONS ∧
    ((chatStream c5JsonParse c8GenId c8Exec c5Provider [userBalanceMsg]).events).countP isErrorEvent = 1 ∧
    ((chatStream c5JsonParse c8GenId c8Exec c5Provider [userBalanceMsg]).events).getLast? =
      some (RelayEvent.errorEvent "Maximum iterations reached") :=
  ceiling_exactly_max_iterations c5JsonParse c8GenId c8Exec c5Provider [userBalanceMsg]
    (fun _ => by
      show executesTools (processTurn c5JsonParse c8GenId ["data: FRAG"]).1
      decide)

/-- C6: for any turn with k tool calls and any completion order of their
concurrent executions (any permutation of the task indices), the
event-loop gather of Promise.all reassembles the results in original call
order; the i-th result message carries the tool_call_id of the i-th call,
and the loop's Promise.all composite appends exactly the in-order message
list to the conversation. -/
theorem toolResults_in_call_order (exec : String → String → String) (calls : List ToolCall)
    (order : List Nat) (h : order.Perm (List.range calls.length)) :
    gatherByCompletion (calls.map (toolResultMessage exec)) order =
      (calls.map (toolResultMessage exec)).map some ∧
    (calls.map (toolResultMessage exec)).map Message.tool_call_id =
      calls.map (fun tc => some tc.id) ∧
    promiseAllResults exec (calls.map some) =
      calls.map (fun tc => ConvEntry.msg (toolResultMessage exec tc)) := by
  refine ⟨?_, ?_, ?_⟩
  · exact gatherByCompletion_perm _ order (by simpa using h)
  · simp [List.map_map, toolResultMessage, Function.comp]
  · simp [promiseAllResults, List.map_map, Function.comp]

/-- Witness for C6: three calls with completion order 1, 2, 0 (latencies
30ms, 10ms, 20ms) still gather into call order 0, 1, 2. -/
theorem toolResults_in_call_order_witness :
    gatherByCompletion ([c6CallA, c6CallB, c6CallC].map (toolResultMessage c6Exec)) c6Order =
      ([c6CallA, c6CallB, c6CallC].map (toolResultMessage c6Exec)).map some ∧
    ([c6CallA, c6CallB, c6CallC].map (toolResultMessage c6Exec)).map Message.tool_call_id =
      [c6CallA, c6CallB, c6CallC].map (fun tc => some tc.id) ∧
    promiseAllResults c6Exec ([c6CallA, c6CallB, c6CallC].map some) =
      [c6CallA, c6CallB, c6CallC].map (fun tc => ConvEntry.msg (toolResultMessage c6Exec tc)) :=
  toolResults_in_call_order c6Exec [c6CallA, c6CallB, c6CallC] c6Order (by decide)

/-- C7: a forced refresh whose fetch fails returns the existing cache
contents with the cache state (contents and timestamp) unchanged, and
propagates the failure when no cache exists yet. -/
theorem getStripeTools_forced_refresh_failure (err : String) (now : Nat) (st : ToolsCache) :
    (∀ c, st.cachedTools = some c →
      getStripeTools (Except.error err) now true st = (Except.ok c, st)) ∧
    (st.cachedTools = none →
      getStripeTools (Except.error err) now true st = (Except.error err, st)) := by
  constructor
  · intro c hc
    simp [getStripeTools, hc]
  · intro hc
    simp [getStripeTools, hc]

/-- Witness for C7: a failing forced refresh over a one-tool cache returns
that cache unchanged, and over an empty cache propagates the error. -/
theorem getStripeTools_forced_refresh_failure_witness :
    getStripeTools (Except.error "fetch failed") 100 true c7CacheSome =
      (Except.ok [c7Tool], c7CacheSome) ∧
    getStripeTools (Except.error "fetch failed") 100 true c7CacheNone =
      (Except.error "fetch failed", c7CacheNone) :=
  ⟨(getStripeTools_forced_refresh_failure "fetch failed" 100 c7CacheSome).1 [c7Tool] rfl,
   (getStripeTools_forced_refresh_failure "fetch failed" 100 c7CacheNone).2 rfl⟩

/-- C8 counterexample: in the two-turn balance scenario the final
conversation value has 3 entries — the terminal assistant turn is never
appended to conversationMessages (the no-tool-calls branch of server.js
lines 376-385 only relays it) — so the claimed length of 4 is false. -/
theorem balance_conversation_three_not_four :
    c8Run.conversation.length = 3 ∧ c8Run.conversation.length ≠ 4 := by decide

/-- C8 (amended): in the two-turn balance scenario the relayed output is
exactly the content chunk of turn 2 followed by one end sentinel (none
after the intermediate tool-calling turn), and the final conversation is
user, assistant-with-tool-calls, tool-result — 3 messages, the terminal
assistant text being relayed but never appended. -/
theorem balance_end_to_end_amended :
    c8Run.events = [RelayEvent.rawChunk "data: T2CONTENT", RelayEvent.doneMarker] ∧
    c8Run.conversation = [userBalanceMsg, ConvEntry.msg c8Assistant, ConvEntry.msg c8ToolMsg] ∧
    c8Run.roundTrips = 2 := by decide

/-- C9 counterexample: with fragments only at indices 0 and 2, the frozen
list has length 3 with a hole at index 1, and the conversation receives an
undefined entry at the hole's position — refuting the claim of exactly one
entry per received index and no undefined entries. -/
theorem sparse_indices_produce_undefined_entry :
    (processTurn c9JsonParse c8GenId ["data: C9T1"]).1.toolCalls.length = 3 ∧
    getSlot (processTurn c9JsonParse c8GenId ["data: C9T1"]).1.toolCalls 1 = none ∧
    c9Run.conversation[3]? = some ConvEntry.undef := by decide

/-- C9 (amended): Promise.all over the sparse frozen list yields a result
list of the same length in which every present slot becomes the
well-formed tool message of its call (so exactly one tool message per
received index, in slot order) and every hole contributes one undefined
entry, all of which are appended to the conversation. -/
theorem promiseAllResults_per_slot (exec : String → String → String)
    (tcs : List (Option ToolCall)) :
    (promiseAllResults exec tcs).length = tcs.length ∧
    (promiseAllResults exec tcs).countP isUndef = tcs.countP (fun o => o.isNone) ∧
    (∀ i tc, getSlot tcs i = some tc →
      (promiseAllResults exec tcs)[i]? = some (ConvEntry.msg (toolResultMessage exec tc))) := by
  refine ⟨by simp [promiseAllResults], promiseAllResults_undef_count exec tcs, ?_⟩
  intro i tc h
  rw [getSlot_eq_join] at h
  cases hv : tcs[i]? with
  | none => rw [hv] at h; exact absurd h (by simp)
  | some o =>
      rw [hv] at h
      cases o with
      | none => exact absurd h (by simp)
      | some tc0 =>
          have htc : tc0 = tc := by simpa using h
          subst htc
          rw [promiseAllResults, List.getElem?_map, hv]
          rfl

/-- Witness for C9 (amended): a three-slot list with a hole at index 1
keeps its length, contributes exactly one undefined entry, and maps the
present slot at index 2 to its tool message. -/
theorem promiseAllResults_per_slot_witness :
    (promiseAllResults c6Exec c9WitnessTcs).length = c9WitnessTcs.length ∧
    (promiseAllResults c6Exec c9WitnessTcs).countP isUndef =
      c9WitnessTcs.countP (fun o => o.isNone) ∧
    (promiseAllResults c6Exec c9WitnessTcs)[2]? =
      some (ConvEntry.msg (toolResultMessage c6Exec c6CallC)) :=
  ⟨(promiseAllResults_per_slot c6Exec c9WitnessTcs).1,
   (promiseAllResults_per_slot c6Exec c9WitnessTcs).2.1,
   (promiseAllResults_per_slot c6Exec c9WitnessTcs).2.2 2 c6CallC (by decide)⟩

/-- C10: a request body supplying temperature 0 or max_tokens 0 produces
the same provider request as one omitting them — both select the defaults
0.7 and 5000. -/
theorem zero_sampling_params_equal_omitted (messages : List ConvEntry)
    (tools : List OpenAITool) :
    makeDat1RequestBody messages tools (requestTemperature (some 0)) (requestMaxTokens (some 0)) =
      makeDat1RequestBody messages tools (requestTemperature none) (requestMaxTokens none) ∧
    requestTemperature (some 0) = DEFAULT_TEMPERATURE ∧
    requestMaxTokens (some 0) = DEFAULT_MAX_TOKENS := by
  refine ⟨?_, ?_, ?_⟩ <;> simp [requestTemperature, requestMaxTokens]

end StripeMcp
